import Mathlib

/-
Verification of the transform-loading and composition utilities of the
fmriprep resampling subsystem, embedded shallowly in Lean 4.

Embedded source files:
  * fmriprep/utils/transforms.py   (load_transforms, load_ants_h5, parse_combined_hdf5)
  * fmriprep/interfaces/nitransforms.py (ConvertAffine input-format resolution)
  * fmriprep/workflows/bold/apply.py (_gen_inverses and the fieldmap wiring)

The external `nitransforms` library is a collaborator; its chain data type is
modelled by the inductive `NT` below, with the composition, inversion and
application semantics its API documents (a `TransformChain` holds a list of
transforms, `map` applies the LAST list element first, `a + b` appends `b`,
`TransformBase()` is the identity map, `~t` inverts).
-/

set_option autoImplicit false

namespace FmriPrep

variable {P : Type}

/-- Model of the external nitransforms collaborator: a transform is either
the identity `TransformBase()`, a primitive transform carrying its forward
and inverse point maps, or a `TransformChain` over a list of transforms. -/
inductive NT (P : Type) where
  | base : NT P
  | prim : (P → P) → (P → P) → NT P
  | chain : List (NT P) → NT P

mutual
/-- Model of nitransforms `Transform.map`: `TransformBase` is the identity
map; a chain `[T_a, ..., T_k]` applies the last element first, so the head
of the list is outermost. -/
def NT.map : NT P → P → P
  | .base, x => x
  | .prim f _, x => f x
  | .chain ts, x => NT.mapRev ts x

/-- Apply a transform list in chain order: the head is applied last. -/
def NT.mapRev : List (NT P) → P → P
  | [], x => x
  | t :: ts, x => NT.map t (NT.mapRev ts x)
end

mutual
/-- Model of nitransforms inversion `~t`: a primitive swaps its maps; a
chain `[T_1, ..., T_n]` inverts to `[inv T_n, ..., inv T_1]`. -/
def NT.invert : NT P → NT P
  | .base => .base
  | .prim f g => .prim g f
  | .chain ts => .chain (NT.invertRevList ts)

/-- Invert every element of a transform list and reverse the list. -/
def NT.invertRevList : List (NT P) → List (NT P)
  | [] => []
  | t :: ts => NT.invertRevList ts ++ [NT.invert t]
end

/-- Model of nitransforms composition `a + b`: a chain appends `b` to its
transform list; any other transform forms the two-element chain `[a, b]`. -/
def NT.add : NT P → NT P → NT P
  | .chain ts, b => .chain (ts ++ [b])
  | a, b => .chain [a, b]

/-- A transform file path, reduced to the parts `load_transforms` inspects:
its suffix (`Path(path).suffix` in the source) and an identity tag. -/
structure XfmPath where
  suffix : String
  tag : Nat
deriving DecidableEq

/-- The loading environment: what `load_ants_h5` and `nt.linear.load`
return for each path.  `load_transforms` only dispatches between them. -/
structure LoadEnv (P : Type) where
  ants_h5 : XfmPath → NT P
  linear : XfmPath → NT P

/-- The per-path load dispatch inside the `load_transforms` loop:
`load_ants_h5(path)` when the suffix is `.h5`, else `nt.linear.load(path)`. -/
def loadOne (env : LoadEnv P) (path : XfmPath) : NT P :=
  if path.suffix = ".h5" then env.ants_h5 path else env.linear path

/-- The transform contributed by one path: the loaded transform, inverted
(`~xfm`) when its flag is set. -/
def xfmOf (env : LoadEnv P) (path : XfmPath) (inv : Bool) : NT P :=
  if inv then (loadOne env path).invert else loadOne env path

/-- Python in-place list repetition `l *= n`. -/
def listIMul (l : List Bool) (n : Nat) : List Bool :=
  (List.replicate n l).flatten

/-- One iteration of the accumulation loop in `load_transforms`: the first
transform starts the chain, later ones are composed on with `chain += xfm`. -/
def chainStep (env : LoadEnv P) (acc : Option (NT P)) (pi : XfmPath × Bool) :
    Option (NT P) :=
  match acc with
  | none => some (xfmOf env pi.1 pi.2)
  | some c => some (c.add (xfmOf env pi.1 pi.2))

/-- The loop of `load_transforms`: iterate `zip(xfm_paths[::-1], inverse[::-1])`,
accumulating with `chainStep`; an empty zip yields `nt.base.TransformBase()`. -/
def buildChain (env : LoadEnv P) (paths : List XfmPath) (inverse : List Bool) :
    NT P :=
  match (paths.reverse.zip inverse.reverse).foldl (chainStep env) none with
  | none => NT.base
  | some c => c

/-- `load_transforms` from fmriprep/utils/transforms.py.  The Python
function mutates its `inverse` argument in place via `inverse *= len(xfm_paths)`;
the state-passing translation returns the final value of that list alongside
the chain.  A mismatched flag count raises `ValueError`. -/
def load_transforms (env : LoadEnv P) (xfm_paths : List XfmPath)
    (inverse : List Bool) : Except String (NT P × List Bool) :=
  if inverse.length = 1 then
    let inverse' := listIMul inverse xfm_paths.length
    .ok (buildChain env xfm_paths inverse', inverse')
  else if inverse.length ≠ xfm_paths.length then
    .error "Mismatched number of transforms and inverses"
  else
    .ok (buildChain env xfm_paths inverse, inverse)

/-- Apply a (path, flag) pair list in chain order: head applied last. -/
def applyPairs (env : LoadEnv P) : List (XfmPath × Bool) → P → P
  | [], p => p
  | pi :: L, p => (xfmOf env pi.1 pi.2).map (applyPairs env L p)

/-! ## The composite-container (ANTs HDF5) reader -/

/-- 4x4 homogeneous matrices over the rationals (modelling the float arrays
of the source exactly, since every constant involved is rational). -/
abbrev M4 := Matrix (Fin 4) (Fin 4) ℚ

/-- The LPS/RAS axis-flip diagonal used by the nitransforms ITK reader. -/
def lpsFlip : M4 := Matrix.diagonal ![-1, -1, 1, 1]

/-- Model of nitransforms `ITKLinearTransform.to_ras`: conjugate the stored
ITK (LPS-convention) matrix by the first-two-axis sign flip. -/
def toRas (A : M4) : M4 := lpsFlip * A * lpsFlip

/-- A composite HDF5 transform container, reduced to the datasets
`parse_combined_hdf5` reads: the group-1 affine (as stored, ITK/LPS
convention), and group 2's `TransformType`, `TransformFixedParameters` and
flat `TransformParameters` buffer (length plus contents). -/
structure H5Xfm where
  affine1 : M4
  transformType2 : String
  fixedParams2 : List ℚ
  params2_len : Nat
  params2 : Nat → ℚ

/-- The fixed-parameter block `parse_combined_hdf5` asserts against:
grid shape (193, 229, 193), origin (96, 132, -78), unit spacing, and
LPS direction cosines. -/
def expectedFixedParams : List ℚ :=
  [193, 229, 193, 96, 132, -78, 1, 1, 1, -1, 0, 0, 0, -1, 0, 0, 0, 1]

/-- The elementwise factor `warp *= np.array([-1, -1, 1])`. -/
def warpSign : Fin 3 → ℚ
  | 0 => -1
  | 1 => -1
  | 2 => 1

/-- The flat-buffer component that `warp.reshape((193, 229, 193, 3))
.transpose(2, 1, 0, 3)` places at voxel (x, y, z), component d (before the
sign flip): C-order reshape makes the first reshaped axis slowest, and the
transpose maps it to the z index. -/
def rawWarpComp (h : H5Xfm) (x y z : Nat) (d : Fin 3) : ℚ :=
  h.params2 (((z * 229 + y) * 193 + x) * 3 + d.val)

/-- The reshaped, transposed and sign-flipped displacement component. -/
def reshapeWarp (h : H5Xfm) (x y z : Nat) (d : Fin 3) : ℚ :=
  warpSign d * rawWarpComp h x y z d

/-- The warp affine `parse_combined_hdf5` returns: a baked-in constant. -/
def warpAffineConst : M4 :=
  Matrix.of ![![1, 0, 0, -96], ![0, 1, 0, -132], ![0, 0, 1, -78], ![0, 0, 0, 1]]

/-- Which check of `parse_combined_hdf5` failed.  In Python the first two
are `AssertionError`s (from the two `assert` statements) and the last is
the `ValueError` numpy raises when the buffer size does not match the
hardcoded reshape target `(193, 229, 193, 3)`. -/
inductive ParseErr where
  | typeAssertFailed : ParseErr
  | fixedParamsAssertFailed : ParseErr
  | reshapeSizeError : ParseErr
deriving DecidableEq

/-- The triple `parse_combined_hdf5` returns: the RAS affine, the shape of
the reshaped displacement field, its components, and the grid affine. -/
structure CombinedResult where
  affine : M4
  warpShape : Nat × Nat × Nat
  warp : Nat → Nat → Nat → Fin 3 → ℚ
  warp_affine : M4

/-- `parse_combined_hdf5` from fmriprep/utils/transforms.py: convert the
group-1 affine to RAS, assert the group-2 transform type is exactly
`DisplacementFieldTransform_float_3_3`, assert the fixed parameters equal
the hardcoded template constants, then reshape/transpose/sign-flip the flat
buffer and pair it with the baked-in warp affine. -/
def parse_combined_hdf5 (h : H5Xfm) : Except ParseErr CombinedResult :=
  let affine := toRas h.affine1
  if h.transformType2 ≠ "DisplacementFieldTransform_float_3_3" then
    .error .typeAssertFailed
  else if h.fixedParams2 ≠ expectedFixedParams then
    .error .fixedParamsAssertFailed
  else if h.params2_len ≠ 193 * 229 * 193 * 3 then
    .error .reshapeSizeError
  else
    .ok { affine := affine
          warpShape := (193, 229, 193)
          warp := reshapeWarp h
          warp_affine := warpAffineConst }

/-- A constructed transform record: either an affine or a dense
displacement field with its grid affine, as wrapped by `load_ants_h5` into
`nt.DenseFieldTransform` / `nt.Affine`. -/
inductive TransformRecord where
  | affineRec : M4 → TransformRecord
  | fieldRec : Nat × Nat × Nat → (Nat → Nat → Nat → Fin 3 → ℚ) → M4 → TransformRecord

/-- `load_ants_h5` from fmriprep/utils/transforms.py: parse the container
and return `TransformChain([DenseFieldTransform(warp, warp_affine),
Affine(affine)])`, passing the parsed pieces through unchanged. -/
def load_ants_h5 (h : H5Xfm) : Except ParseErr (List TransformRecord) :=
  (parse_combined_hdf5 h).map fun r =>
    [.fieldRec r.warpShape r.warp r.warp_affine, .affineRec r.affine]

/-! ## ConvertAffine input-format resolution -/

/-- The affine on-disk formats `ConvertAffine` dispatches between. -/
inductive AffFormat where
  | itk : AffFormat
  | fs : AffFormat
  | fsl : AffFormat
deriving DecidableEq

/-- The `in_fmt` trait: `auto` or an explicit format. -/
inductive InFormat where
  | auto : InFormat
  | itk : InFormat
  | fs : InFormat
  | fsl : InFormat
deriving DecidableEq

/-- Errors of the `ConvertAffine` model: the bare `KeyError` Python raises
on an unrecognized suffix (carrying only the dictionary key, i.e. the
suffix), versus a structured format error naming a path and a reason
(which the spec's `FormatError` contract would require). -/
inductive PyErr where
  | keyError : String → PyErr
  | formatError : XfmPath → String → PyErr
deriving DecidableEq

/-- The suffix dictionary lookup in `ConvertAffine._run_interface`:
`{'.lta': 'fs', '.mat': 'fsl', '.txt': 'itk'}[suffix]`; any other suffix
raises `KeyError(suffix)`. -/
def suffixFormat (suffix : String) : Except PyErr AffFormat :=
  if suffix = ".lta" then .ok .fs
  else if suffix = ".mat" then .ok .fsl
  else if suffix = ".txt" then .ok .itk
  else .error (.keyError suffix)

/-- Resolve `in_fmt`: `auto` consults the suffix dictionary, an explicit
hint is used as-is. -/
def resolveInFormat (in_fmt : InFormat) (in_xfm : XfmPath) :
    Except PyErr AffFormat :=
  match in_fmt with
  | .auto => suffixFormat in_xfm.suffix
  | .itk => .ok .itk
  | .fs => .ok .fs
  | .fsl => .ok .fsl

/-- What `nitransforms.linear.load` returns for a path and format. -/
structure AffineEnv (A : Type) where
  load_affine : XfmPath → AffFormat → A

/-- The format-resolution and dispatch portion of
`ConvertAffine._run_interface` from fmriprep/interfaces/nitransforms.py:
resolve the input format, then load the affine with the matching loader. -/
def ConvertAffine.run_dispatch {A : Type} (env : AffineEnv A)
    (in_fmt : InFormat) (in_xfm : XfmPath) : Except PyErr A :=
  (resolveInFormat in_fmt in_xfm).map (env.load_affine in_xfm)

/-! ## Fieldmap wiring in init_bold_volumetric_resample_wf -/

/-- Model of the nipype `Merge(2)` node: concatenate the listified inputs. -/
def niuMerge2 (in1 in2 : List XfmPath) : List XfmPath := in1 ++ in2

/-- The `boldref2target` node: `Merge(boldref2anat_xfm, anat2std_xfm)`. -/
def boldref2target (boldref2anat anat2std : XfmPath) : List XfmPath :=
  niuMerge2 [boldref2anat] [anat2std]

/-- The `fmap2target` node: `Merge(boldref2fmap_xfm, boldref2target.out)`. -/
def fmap2target (boldref2fmap : XfmPath) (b2t : List XfmPath) : List XfmPath :=
  niuMerge2 [boldref2fmap] b2t

/-- `_gen_inverses` from fmriprep/workflows/bold/apply.py: `[True]` for an
empty input, else `[True] + [False] * len(listify(inlist))`. -/
def _gen_inverses (inlist : List XfmPath) : List Bool :=
  if inlist = [] then [true]
  else true :: List.replicate inlist.length false

/-! ## DistortionReconstructor displacement (spec-modelled) -/

/-- Modelled from the spec: the displacement conversion of the
DistortionReconstructor (`ReconstructFieldmap`/`ResampleSeries` in
fmriprep/interfaces/resampling.py, which is not among the provided source
files; only its caller in fmriprep/workflows/bold/apply.py is).  Per spec
section 4.3: `displacement = field_Hz * readout_time` along the
phase-encode axis, with sign given by the axis's declared polarity, and
zero displacement along the other two axes. -/
def reconstructDisplacement (fieldHz roTime : ℚ) (peAxis : Fin 3)
    (positivePolarity : Bool) : Fin 3 → ℚ :=
  fun ax =>
    if ax = peAxis then
      (if positivePolarity then 1 else -1) * fieldHz * roTime
    else 0

/-! ## Concrete inputs used by witnesses and counterexamples -/

/-- A linear-transform path whose loaded map is x ↦ x + 1 under `envNat`. -/
def pA : XfmPath := ⟨".txt", 1⟩

/-- A linear-transform path whose loaded map is x ↦ 10 * x under `envNat`. -/
def pB : XfmPath := ⟨".txt", 2⟩

/-- A boldref-to-fieldmap transform path. -/
def pF : XfmPath := ⟨".txt", 3⟩

/-- An anat-to-template transform path. -/
def pS : XfmPath := ⟨".txt", 4⟩

/-- A path with an extension no affine loader recognizes. -/
def pXyz : XfmPath := ⟨".xyz", 7⟩

/-- A path with the FreeSurfer `.lta` extension. -/
def pLta : XfmPath := ⟨".lta", 8⟩

/-- A concrete loading environment over natural-number points: path tag 1
loads x ↦ x + 1, any other tag loads x ↦ 10 * x. -/
def envNat : LoadEnv Nat :=
  { ants_h5 := fun _ => NT.base
    linear := fun p =>
      if p.tag = 1 then NT.prim (fun x => x + 1) (fun x => x - 1)
      else NT.prim (fun x => 10 * x) (fun x => x / 10) }

/-- A concrete affine-loading environment. -/
def envAff : AffineEnv Nat := ⟨fun _ _ => 0⟩

/-- The chain `load_transforms` builds for `[pA, pB]` with forward flags. -/
def chainW : NT Nat := buildChain envNat [pA, pB] [false, false]

/-- A well-formed composite container: the expected type tag, the hardcoded
fixed parameters, and a zero buffer of the hardcoded length. -/
def hGood : H5Xfm :=
  { affine1 := 1
    transformType2 := "DisplacementFieldTransform_float_3_3"
    fixedParams2 := expectedFixedParams
    params2_len := 193 * 229 * 193 * 3
    params2 := fun _ => 0 }

/-- The result `parse_combined_hdf5` yields on `hGood`. -/
def resGood : CombinedResult :=
  { affine := toRas hGood.affine1
    warpShape := (193, 229, 193)
    warp := reshapeWarp hGood
    warp_affine := warpAffineConst }

/-- A container whose group-2 transform type is not a displacement field. -/
def hBadType : H5Xfm :=
  { hGood with transformType2 := "AffineTransform_float_3_3" }

/-- A container declaring a (4, 4, 4) displacement grid with a matching
4*4*4*3-element buffer — the spec's Concrete scenario B. -/
def h444 : H5Xfm :=
  { affine1 := 1
    transformType2 := "DisplacementFieldTransform_float_3_3"
    fixedParams2 := [4, 4, 4, 96, 132, -78, 1, 1, 1, -1, 0, 0, 0, -1, 0, 0, 0, 1]
    params2_len := 4 * 4 * 4 * 3
    params2 := fun _ => 0 }

/-- A container with the hardcoded fixed parameters but a flat buffer whose
length does not match the hardcoded reshape target. -/
def hBadLen : H5Xfm := { hGood with params2_len := 5 }

/-! ## Helper lemmas -/

theorem NT.add_map (c x : NT P) (p : P) : (c.add x).map p = c.map (x.map p) := by
  cases c with
  | base => simp [NT.add, NT.map, NT.mapRev]
  | prim f g => simp [NT.add, NT.map, NT.mapRev]
  | chain ts =>
    show NT.mapRev (ts ++ [x]) p = NT.mapRev ts (x.map p)
    induction ts with
    | nil => simp [NT.mapRev, NT.map]
    | cons t ts ih => simp [NT.mapRev, ih]

theorem foldl_chainStep_some (env : LoadEnv P) (L : List (XfmPath × Bool)) :
    ∀ c : NT P, ∃ c', L.foldl (chainStep env) (some c) = some c' ∧
      ∀ p, c'.map p = c.map (applyPairs env L p) := by
  induction L with
  | nil => exact fun c => ⟨c, rfl, fun p => rfl⟩
  | cons x L ih =>
    intro c
    obtain ⟨c', hc', hmap⟩ := ih (c.add (xfmOf env x.1 x.2))
    refine ⟨c', ?_, fun p => ?_⟩
    · simpa [chainStep] using hc'
    · rw [hmap, NT.add_map]
      rfl

theorem buildChain_map (env : LoadEnv P) (paths : List XfmPath)
    (inverse : List Bool) (p : P) :
    (buildChain env paths inverse).map p =
      applyPairs env (paths.reverse.zip inverse.reverse) p := by
  unfold buildChain
  cases hL : paths.reverse.zip inverse.reverse with
  | nil => simp [NT.map, applyPairs]
  | cons x L =>
    obtain ⟨c', hc', hmap⟩ := foldl_chainStep_some env L (xfmOf env x.1 x.2)
    have : (x :: L).foldl (chainStep env) none = some c' := by
      simpa [chainStep] using hc'
    rw [this]
    exact hmap p

theorem applyPairs_append (env : LoadEnv P) (A B : List (XfmPath × Bool))
    (p : P) : applyPairs env (A ++ B) p = applyPairs env A (applyPairs env B p) := by
  induction A with
  | nil => rfl
  | cons x A ih => simp [applyPairs, ih]

theorem applyPairs_reverse (env : LoadEnv P) (L : List (XfmPath × Bool)) (p : P) :
    applyPairs env L.reverse p =
      L.foldl (fun q pi => (xfmOf env pi.1 pi.2).map q) p := by
  induction L generalizing p with
  | nil => rfl
  | cons x L ih =>
    rw [List.reverse_cons, applyPairs_append]
    simp [applyPairs, ih]

theorem zip_reverse {A B : Type} (l1 : List A) (l2 : List B)
    (h : l1.length = l2.length) :
    l1.reverse.zip l2.reverse = (l1.zip l2).reverse := by
  induction l1 generalizing l2 with
  | nil =>
    cases l2 with
    | nil => rfl
    | cons b l2 => simp at h
  | cons a l1 ih =>
    cases l2 with
    | nil => simp at h
    | cons b l2 =>
      have hlen : l1.length = l2.length := by simpa using h
      have hrev : l1.reverse.length = l2.reverse.length := by simpa using hlen
      simp only [List.reverse_cons]
      rw [List.zip_append hrev, ih l2 hlen]
      simp [List.zip]

theorem buildChain_map_fwd (env : LoadEnv P) (paths : List XfmPath)
    (inverse : List Bool) (h : paths.length = inverse.length) (p : P) :
    (buildChain env paths inverse).map p =
      (paths.zip inverse).foldl (fun q pi => (xfmOf env pi.1 pi.2).map q) p := by
  rw [buildChain_map, zip_reverse _ _ h, applyPairs_reverse]

theorem listIMul_singleton (b : Bool) (n : Nat) :
    listIMul [b] n = List.replicate n b := by
  induction n with
  | zero => rfl
  | succ n ih =>
    simp only [listIMul, List.replicate, List.flatten] at ih ⊢
    simp [ih]

theorem load_transforms_singleton_flag (env : LoadEnv P) (paths : List XfmPath)
    (b : Bool) :
    load_transforms env paths [b] =
      .ok (buildChain env paths (List.replicate paths.length b),
           List.replicate paths.length b) := by
  simp [load_transforms, listIMul_singleton]

theorem load_transforms_replicate_flag (env : LoadEnv P) (paths : List XfmPath)
    (b : Bool) :
    load_transforms env paths (List.replicate paths.length b) =
      .ok (buildChain env paths (List.replicate paths.length b),
           List.replicate paths.length b) := by
  by_cases h1 : paths.length = 1
  · rw [h1]
    simp [load_transforms, listIMul_singleton, h1, List.replicate_one]
  · simp [load_transforms, h1]

/-! ## Claim theorems -/

/-- Claim C2: a single inverse flag is broadcast — the loader's result on a
length-1 flag list equals its result on that flag repeated once per path —
and any flag-list length that is neither 1 nor the number of paths raises
the fatal `ValueError` before any chain is built. -/
theorem load_transforms_flag_broadcast :
    (∀ (Q : Type) (env : LoadEnv Q) (paths : List XfmPath) (b : Bool),
      load_transforms env paths [b] =
        load_transforms env paths (List.replicate paths.length b)) ∧
    (∀ (Q : Type) (env : LoadEnv Q) (paths : List XfmPath) (flags : List Bool),
      flags.length ≠ 1 → flags.length ≠ paths.length →
      load_transforms env paths flags =
        .error "Mismatched number of transforms and inverses") := by
  constructor
  · intro Q env paths b
    rw [load_transforms_singleton_flag, load_transforms_replicate_flag]
  · intro Q env paths flags h1 h2
    simp [load_transforms, h1, h2]

theorem load_transforms_flag_broadcast_witness :
    load_transforms envNat [pA, pB] [true] =
      load_transforms envNat [pA, pB] (List.replicate 2 true) ∧
    load_transforms envNat [pA] [true, false] =
      .error "Mismatched number of transforms and inverses" :=
  ⟨load_transforms_flag_broadcast.1 Nat envNat [pA, pB] true,
   load_transforms_flag_broadcast.2 Nat envNat [pA] [true, false]
     (by decide) (by decide)⟩

/-- Claim C3: whenever the loader returns a chain, applying it to a point
`p` computes `T_n (... (T_1 p))` where `T_i` is the (possibly inverted)
transform loaded from the i-th path: folding the path/flag pairs forward
from index 1, each transform applied on top of the previous results. -/
theorem load_transforms_application_order {Q : Type} (env : LoadEnv Q)
    (paths : List XfmPath) (flags : List Bool) (c : NT Q) (inv' : List Bool)
    (h : load_transforms env paths flags = .ok (c, inv')) (p : Q) :
    c.map p =
      (paths.zip inv').foldl (fun q pi => (xfmOf env pi.1 pi.2).map q) p := by
  by_cases h1 : flags.length = 1
  · obtain ⟨b, rfl⟩ := List.length_eq_one.mp h1
    rw [load_transforms_singleton_flag] at h
    simp only [Except.ok.injEq, Prod.mk.injEq] at h
    obtain ⟨rfl, rfl⟩ := h
    exact buildChain_map_fwd env paths _ (by simp) p
  · by_cases h2 : flags.length = paths.length
    · simp only [load_transforms, h1, if_false] at h
      rw [if_neg (by simp [h2])] at h
      simp only [Except.ok.injEq, Prod.mk.injEq] at h
      obtain ⟨rfl, rfl⟩ := h
      exact buildChain_map_fwd env paths flags h2.symm p
    · simp only [load_transforms, h1, if_false] at h
      rw [if_pos h2] at h
      exact Except.noConfusion h

theorem load_transforms_application_order_witness :
    NT.map chainW 0 =
      ([pA, pB].zip [false, false]).foldl
        (fun q pi => (xfmOf envNat pi.1 pi.2).map q) 0 ∧
    NT.map chainW 0 = 10 :=
  ⟨load_transforms_application_order envNat [pA, pB] [false, false] chainW
      [false, false] rfl 0, rfl⟩

/-- Claim C7: the loader applied to an empty path list returns the identity
transform — every point maps to itself. -/
theorem load_transforms_empty_identity {Q : Type} (env : LoadEnv Q)
    (flags : List Bool) (c : NT Q) (inv' : List Bool)
    (h : load_transforms env [] flags = .ok (c, inv')) (p : Q) :
    c.map p = p := by
  by_cases h1 : flags.length = 1
  · obtain ⟨b, rfl⟩ := List.length_eq_one.mp h1
    rw [load_transforms_singleton_flag] at h
    simp only [List.length_nil, List.replicate, Except.ok.injEq,
      Prod.mk.injEq] at h
    obtain ⟨rfl, rfl⟩ := h
    rfl
  · by_cases h2 : flags.length = 0
    · obtain rfl := List.length_eq_zero.mp h2
      rw [load_transforms, if_neg h1, if_neg (by simp)] at h
      simp only [Except.ok.injEq, Prod.mk.injEq] at h
      obtain ⟨rfl, rfl⟩ := h
      rfl
    · rw [load_transforms, if_neg h1, if_pos (by simpa using h2)] at h
      exact Except.noConfusion h

theorem load_transforms_empty_identity_witness :
    NT.map (NT.base : NT Nat) 0 = 0 :=
  load_transforms_empty_identity envNat [] NT.base [] rfl 0

/-- Claim C10: broadcasting a length-1 flag list mutates the caller's list
in place via `inverse *= len(xfm_paths)`: the final state of the `inverse`
argument returned by the state-passing embedding is the flag repeated once
per path, so its length is the number of paths (zero for no paths). -/
theorem load_transforms_inverse_inplace_mutation {Q : Type} (env : LoadEnv Q)
    (paths : List XfmPath) (b : Bool) :
    (∃ c, load_transforms env paths [b] =
        .ok (c, List.replicate paths.length b)) ∧
    (List.replicate paths.length b).length = paths.length :=
  ⟨⟨_, load_transforms_singleton_flag env paths b⟩, by simp⟩

/-- Claim C8: the fieldmap-reconstructor wiring hands over the
boldref-to-fieldmap path followed by the boldref-to-anat and
anat-to-template paths, with `_gen_inverses` flagging exactly the first
transform as inverted (`[True]` on an empty following list, else `[True]`
followed by one `False` per following transform), so the loaded static
chain maps a fieldmap-space point through inverted boldref2fmap, then
boldref2anat, then anat2std into target space. -/
theorem fieldmap_wiring_inverse_flags :
    _gen_inverses [] = [true] ∧
    (∀ l : List XfmPath, l ≠ [] →
      _gen_inverses l = true :: List.replicate l.length false) ∧
    (∀ f a s : XfmPath,
      fmap2target f (boldref2target a s) = [f, a, s] ∧
      _gen_inverses (boldref2target a s) = [true, false, false]) ∧
    (∀ (Q : Type) (env : LoadEnv Q) (f a s : XfmPath) (p : Q),
      ∃ c, load_transforms env (fmap2target f (boldref2target a s))
            (_gen_inverses (boldref2target a s)) =
          .ok (c, [true, false, false]) ∧
        c.map p = (loadOne env s).map ((loadOne env a).map
          (((loadOne env f).invert).map p))) := by
  refine ⟨rfl, ?_, fun f a s => ⟨rfl, rfl⟩, ?_⟩
  · intro l hl
    simp [_gen_inverses, hl]
  · intro Q env f a s p
    refine ⟨_, rfl, ?_⟩
    have hfix1 : fmap2target f (boldref2target a s) = [f, a, s] := rfl
    have hfix2 : _gen_inverses (boldref2target a s) = [true, false, false] := rfl
    rw [hfix1, hfix2, buildChain_map_fwd env [f, a, s] [true, false, false] rfl p]
    simp [xfmOf]

theorem fieldmap_wiring_inverse_flags_witness :
    _gen_inverses [pA] = true :: List.replicate 1 false ∧
    fmap2target pF (boldref2target pA pS) = [pF, pA, pS] :=
  ⟨fieldmap_wiring_inverse_flags.2.1 [pA] (by decide),
   (fieldmap_wiring_inverse_flags.2.2.1 pF pA pS).1⟩

/-- Claim C4 (spec-modelled, as the DistortionReconstructor implementation
file is not among the provided sources): the reconstructed displacement is
`field_Hz * readout_time` along the phase-encode axis with the sign of the
declared polarity and zero along the other two axes; concretely, Hz values
0 and 10 with readout time 0.02 s on axis j give displacements 0 and 0.2
along j and 0 elsewhere. -/
theorem reconstruct_displacement_spec :
    (∀ (hz ro : ℚ) (pe ax : Fin 3) (pol : Bool), ax ≠ pe →
      reconstructDisplacement hz ro pe pol ax = 0) ∧
    (∀ (hz ro : ℚ) (pe : Fin 3),
      reconstructDisplacement hz ro pe true pe = hz * ro ∧
      reconstructDisplacement hz ro pe false pe = -(hz * ro)) ∧
    (reconstructDisplacement 0 (1/50) 1 true 1 = 0 ∧
     reconstructDisplacement 10 (1/50) 1 true 1 = 1/5 ∧
     reconstructDisplacement 10 (1/50) 1 true 0 = 0 ∧
     reconstructDisplacement 10 (1/50) 1 true 2 = 0) := by
  refine ⟨?_, ?_, ?_⟩
  · intro hz ro pe ax pol hne
    simp [reconstructDisplacement, hne]
  · intro hz ro pe
    constructor <;> simp [reconstructDisplacement]
  · refine ⟨?_, ?_, ?_, ?_⟩ <;> norm_num [reconstructDisplacement] <;> decide

theorem reconstruct_displacement_spec_witness :
    reconstructDisplacement 10 (1/50) 1 true 0 = 0 :=
  reconstruct_displacement_spec.1 10 (1/50) 1 0 true (by decide)

/-- Claim C5: a composite container whose group-2 transform-type tag is not
the recognized displacement-field type makes the reader fail fatally with
no record returned, while the expected tag passes this validation. -/
theorem parse_combined_hdf5_type_validation :
    (∀ h : H5Xfm, h.transformType2 ≠ "DisplacementFieldTransform_float_3_3" →
      parse_combined_hdf5 h = .error .typeAssertFailed) ∧
    (∀ h : H5Xfm, h.transformType2 = "DisplacementFieldTransform_float_3_3" →
      parse_combined_hdf5 h ≠ .error .typeAssertFailed) := by
  constructor
  · intro h hne
    simp [parse_combined_hdf5, hne]
  · intro h he
    simp only [parse_combined_hdf5, he, ne_eq, not_true_eq_false,
      if_false, ite_not]
    split_ifs <;> simp

theorem parse_combined_hdf5_type_validation_witness :
    parse_combined_hdf5 hBadType = .error .typeAssertFailed ∧
    parse_combined_hdf5 hGood ≠ .error .typeAssertFailed :=
  ⟨parse_combined_hdf5_type_validation.1 hBadType (by decide),
   parse_combined_hdf5_type_validation.2 hGood rfl⟩

/-- Claim C6: every record the composite-container reader constructs is in
physical RAS+ coordinates — the parsed affine is the stored one converted
to RAS, the first two components of every displacement vector are negated
relative to the stored buffer (the third kept) — and `load_ants_h5` wraps
those parsed pieces into its transform records unchanged, with no further
handedness conversion downstream of construction. -/
theorem parse_combined_hdf5_ras_records (h : H5Xfm) (r : CombinedResult)
    (hok : parse_combined_hdf5 h = .ok r) :
    r.affine = toRas h.affine1 ∧
    (∀ x y z : Nat,
      r.warp x y z 0 = -(rawWarpComp h x y z 0) ∧
      r.warp x y z 1 = -(rawWarpComp h x y z 1) ∧
      r.warp x y z 2 = rawWarpComp h x y z 2) ∧
    load_ants_h5 h =
      .ok [.fieldRec r.warpShape r.warp r.warp_affine, .affineRec r.affine] := by
  have hok' := hok
  unfold parse_combined_hdf5 at hok'
  split_ifs at hok'
  injection hok' with hr
  subst hr
  refine ⟨rfl, fun x y z => ⟨?_, ?_, ?_⟩, ?_⟩
  · show reshapeWarp h x y z 0 = -(rawWarpComp h x y z 0)
    simp [reshapeWarp, warpSign]
  · show reshapeWarp h x y z 1 = -(rawWarpComp h x y z 1)
    simp [reshapeWarp, warpSign]
  · show reshapeWarp h x y z 2 = rawWarpComp h x y z 2
    simp [reshapeWarp, warpSign]
  · simp [load_ants_h5, hok, Except.map]

theorem parse_combined_hdf5_ras_records_witness :
    resGood.affine = toRas hGood.affine1 ∧
    resGood.warp 1 2 3 0 = -(rawWarpComp hGood 1 2 3 0) ∧
    load_ants_h5 hGood =
      .ok [.fieldRec resGood.warpShape resGood.warp resGood.warp_affine,
           .affineRec resGood.affine] := by
  obtain ⟨h1, h2, h3⟩ := parse_combined_hdf5_ras_records hGood resGood rfl
  exact ⟨h1, (h2 1 2 3).1, h3⟩

/-- Counterexample to claim C1: a composite container declaring a (4, 4, 4)
displacement grid with a flat buffer of 4*4*4*3 values does not yield a
(4, 4, 4, 3) field — the reader's hardcoded fixed-parameter assertion fails
and no result is produced. -/
theorem parse_combined_hdf5_declared_grid_cex :
    parse_combined_hdf5 h444 = .error .fixedParamsAssertFailed ∧
    ∀ r : CombinedResult, parse_combined_hdf5 h444 ≠ .ok r := by
  refine ⟨rfl, fun r hr => ?_⟩
  rw [show parse_combined_hdf5 h444 = .error .fixedParamsAssertFailed
        from rfl] at hr
  exact Except.noConfusion hr

/-- Claim C1 (amended): the composite-container reader asserts the declared
fixed-parameter block equals the hardcoded template constants and, when it
does, reshapes with the hardcoded (193, 229, 193) grid and returns the
baked-in voxel-to-physical affine; any other declared fixed-parameter
block (such as a (4, 4, 4) grid) fails the assertion, and a buffer whose
length does not match the hardcoded size fails at the reshape. -/
theorem parse_combined_hdf5_hardcoded_grid :
    (∀ h : H5Xfm, h.transformType2 = "DisplacementFieldTransform_float_3_3" →
      h.fixedParams2 = expectedFixedParams →
      h.params2_len = 193 * 229 * 193 * 3 →
      parse_combined_hdf5 h =
        .ok { affine := toRas h.affine1
              warpShape := (193, 229, 193)
              warp := reshapeWarp h
              warp_affine := warpAffineConst }) ∧
    (∀ h : H5Xfm, h.transformType2 = "DisplacementFieldTransform_float_3_3" →
      h.fixedParams2 ≠ expectedFixedParams →
      parse_combined_hdf5 h = .error .fixedParamsAssertFailed) ∧
    (∀ h : H5Xfm, h.transformType2 = "DisplacementFieldTransform_float_3_3" →
      h.fixedParams2 = expectedFixedParams →
      h.params2_len ≠ 193 * 229 * 193 * 3 →
      parse_combined_hdf5 h = .error .reshapeSizeError) := by
  refine ⟨?_, ?_, ?_⟩
  · intro h h1 h2 h3
    simp [parse_combined_hdf5, h1, h2, h3]
  · intro h h1 h2
    simp [parse_combined_hdf5, h1, h2]
  · intro h h1 h2 h3
    simp [parse_combined_hdf5, h1, h2, h3]

theorem parse_combined_hdf5_hardcoded_grid_witness :
    parse_combined_hdf5 hGood =
      .ok { affine := toRas hGood.affine1
            warpShape := (193, 229, 193)
            warp := reshapeWarp hGood
            warp_affine := warpAffineConst } ∧
    parse_combined_hdf5 h444 = .error .fixedParamsAssertFailed ∧
    parse_combined_hdf5 hBadLen = .error .reshapeSizeError :=
  ⟨parse_combined_hdf5_hardcoded_grid.1 hGood rfl rfl rfl,
   parse_combined_hdf5_hardcoded_grid.2.1 h444 rfl (by decide),
   parse_combined_hdf5_hardcoded_grid.2.2 hBadLen rfl rfl (by decide)⟩

/-- Counterexample to claim C9: with format hint `auto`, a path whose
extension is unrecognized fails with a bare `KeyError` carrying only the
extension string — not a structured format error naming the offending path
and a reason. -/
theorem convert_affine_keyerror_cex :
    ConvertAffine.run_dispatch envAff .auto pXyz = .error (.keyError ".xyz") ∧
    ∀ reason : String,
      (Except.error (PyErr.keyError ".xyz") : Except PyErr Nat) ≠
        .error (.formatError pXyz reason) := by
  refine ⟨rfl, fun reason hr => ?_⟩
  simp at hr

/-- Claim C9 (amended): with hint `auto`, `.lta`, `.mat` and `.txt` paths
are dispatched to the fs, fsl and itk loaders respectively, while any other
extension raises `KeyError` on the suffix (an anonymous dictionary-lookup
error rather than a `FormatError` naming the path and the reason). -/
theorem convert_affine_auto_dispatch :
    (∀ (A : Type) (env : AffineEnv A) (p : XfmPath),
      p.suffix ≠ ".lta" → p.suffix ≠ ".mat" → p.suffix ≠ ".txt" →
      ConvertAffine.run_dispatch env .auto p = .error (.keyError p.suffix)) ∧
    (∀ (A : Type) (env : AffineEnv A) (p : XfmPath),
      (p.suffix = ".lta" →
        ConvertAffine.run_dispatch env .auto p = .ok (env.load_affine p .fs)) ∧
      (p.suffix = ".mat" →
        ConvertAffine.run_dispatch env .auto p = .ok (env.load_affine p .fsl)) ∧
      (p.suffix = ".txt" →
        ConvertAffine.run_dispatch env .auto p = .ok (env.load_affine p .itk))) := by
  constructor
  · intro A env p h1 h2 h3
    simp [ConvertAffine.run_dispatch, resolveInFormat, suffixFormat,
      Except.map, h1, h2, h3]
  · intro A env p
    refine ⟨fun hs => ?_, fun hs => ?_, fun hs => ?_⟩ <;>
      simp [ConvertAffine.run_dispatch, resolveInFormat, suffixFormat,
        Except.map, hs]

theorem convert_affine_auto_dispatch_witness :
    ConvertAffine.run_dispatch envAff .auto pXyz =
      .error (.keyError pXyz.suffix) ∧
    ConvertAffine.run_dispatch envAff .auto pLta =
      .ok (envAff.load_affine pLta .fs) :=
  ⟨convert_affine_auto_dispatch.1 Nat envAff pXyz
      (by decide) (by decide) (by decide),
   (convert_affine_auto_dispatch.2 Nat envAff pLta).1 rfl⟩

end FmriPrep
